import Mathlib

/-!
Verification of the texture-cache / debug-utils sample
(`src/video_core/debug_utils/debug_utils.cpp` and
`src/video_core/renderer_vulkan/vk_texture_cache.h`) against its
natural-language specification.  Every definition is a shallow embedding of
the corresponding C++ entity; machine integers are modelled as `Nat` with an
explicit `% 2 ^ w` where 32-bit overflow could matter.
-/

namespace Yuzu

/-! ## Tiled-address codec (`DumpTexture`, debug_utils.cpp lines 407-415)

The inner loop of `DumpTexture`:
```
int texel_index_within_tile = 0;
for (int block_size_index = 0; block_size_index < 3; ++block_size_index) {
    int sub_tile_width = 1 << block_size_index;
    int sub_tile_height = 1 << block_size_index;
    int sub_tile_index = (x & sub_tile_width) << block_size_index;
    sub_tile_index += 2 * ((y & sub_tile_height) << block_size_index);
    texel_index_within_tile += sub_tile_index;
}
```
-/

/-- One iteration of the loop body: the contribution of nesting level
`block_size_index` for coordinates `(x, y)`. -/
def subTileIndex (x y block_size_index : Nat) : Nat :=
  let sub_tile_width := 1 <<< block_size_index
  let sub_tile_height := 1 <<< block_size_index
  ((x &&& sub_tile_width) <<< block_size_index) +
    2 * ((y &&& sub_tile_height) <<< block_size_index)

/-- `texel_index_within_tile` as computed by the three-iteration loop in
`DumpTexture`: the accumulator starts at 0 and the loop runs for
`block_size_index = 0, 1, 2`. -/
def texelIndexWithinTile (x y : Nat) : Nat :=
  (List.range 3).foldl (fun acc block_size_index => acc + subTileIndex x y block_size_index) 0

/-- The 8×8 tile traversal table produced by the codec, listed row by row
from `y = 0` (bottom row of the comment block in the source) to `y = 7`. -/
def tileGrid : List (List Nat) :=
  (List.range 8).map fun y => (List.range 8).map fun x => texelIndexWithinTile x y

/-- C1: the three-iteration loop in `DumpTexture` computes the hierarchical
Z-order interleave: it equals the closed-form sum over levels 0, 1, 2 of
`((x &&& (1 <<< level)) <<< level) + 2 * ((y &&& (1 <<< level)) <<< level)`;
the bottom row (`y = 0`) of the 8×8 tile is `0,1,4,5,16,17,20,21`; the full
8×8 permutation is the fixed table from the source comment; and the first
2×2 quads carry indices `0,1,2,3`, `8,9,10,11`, `16,17,...` as claimed. -/
theorem dump_texture_tile_index_is_z_order :
    (∀ x y : Fin 8, texelIndexWithinTile x y =
      ∑ l ∈ Finset.range 3,
        ((((x : Nat) &&& (1 <<< l)) <<< l) + 2 * (((y : Nat) &&& (1 <<< l)) <<< l))) ∧
    ((List.range 8).map (fun x => texelIndexWithinTile x 0) = [0, 1, 4, 5, 16, 17, 20, 21]) ∧
    tileGrid = [[0, 1, 4, 5, 16, 17, 20, 21],
                [2, 3, 6, 7, 18, 19, 22, 23],
                [8, 9, 12, 13, 24, 25, 28, 29],
                [10, 11, 14, 15, 26, 27, 30, 31],
                [32, 33, 36, 37, 48, 49, 52, 53],
                [34, 35, 38, 39, 50, 51, 54, 55],
                [40, 41, 44, 45, 56, 57, 60, 61],
                [42, 43, 46, 47, 58, 59, 62, 63]] ∧
    [texelIndexWithinTile 0 0, texelIndexWithinTile 1 0,
     texelIndexWithinTile 0 1, texelIndexWithinTile 1 1] = [0, 1, 2, 3] ∧
    [texelIndexWithinTile 0 2, texelIndexWithinTile 1 2,
     texelIndexWithinTile 0 3, texelIndexWithinTile 1 3] = [8, 9, 10, 11] ∧
    texelIndexWithinTile 4 0 = 16 ∧ texelIndexWithinTile 5 0 = 17 := by
  refine ⟨by decide, by decide, by decide, by decide, by decide, by decide, by decide⟩

/-! ## Decode direction and round-trip (claim C2)

`DumpTexture` applies the codec in the decode (native → linear) direction:
for each linear `(x, y)` it reads the tiled source byte at
`coarse_x * block_height * 3 + coarse_y * row_stride + texel_index_within_tile * 3`
(line 423, 3 bytes per texel, `row_stride = width * 3`).  The encode
direction is the same addressing function used in the opposite copy
direction, so the inverse mapping below recovers `(x, y)` from the tiled
offset. -/

/-- All 64 texel coordinates of one 8×8 tile, scanned row-major. -/
def tileCoords : List (Nat × Nat) :=
  (List.range 64).map fun i => (i % 8, i / 8)

/-- Inverse of the within-tile addressing function: the `(x, y)` of the tile
whose encoded texel index is `t`. -/
def decodeTexelIndex (t : Nat) : Nat × Nat :=
  (tileCoords.find? fun p => texelIndexWithinTile p.1 p.2 == t).getD (0, 0)

/-- Byte offset into the tiled image accessed by `DumpTexture` for texel
`(x, y)`: `coarse_x * block_height * 3 + coarse_y * row_stride +
texel_index_within_tile * 3` with `block_width = block_height = 8` and
`row_stride = width * 3`. -/
def tiledByteOffset (width x y : Nat) : Nat :=
  let row_stride := width * 3
  let block_width := 8
  let block_height := 8
  let coarse_x := x / block_width * block_width
  let coarse_y := y / block_height * block_height
  coarse_x * block_height * 3 + coarse_y * row_stride + texelIndexWithinTile x y * 3

/-- Inverse of `tiledByteOffset` on a tile-aligned image of the given
width: recovers the linear coordinate from the tiled byte offset. -/
def tiledByteDecode (width o : Nat) : Nat × Nat :=
  let texels := o / 3
  let t := texels % 64
  let tile := texels / 64
  let tiles_per_row := width / 8
  let p := decodeTexelIndex t
  (8 * (tile % tiles_per_row) + p.1, 8 * (tile / tiles_per_row) + p.2)

/-- The and-mask against a constant below `2 ^ k` only sees the low `k` bits
of its other operand. -/
lemma and_mod_two_pow_of_lt {m k : Nat} (x : Nat) (hm : m < 2 ^ k) :
    x % 2 ^ k &&& m = x &&& m := by
  apply Nat.eq_of_testBit_eq
  intro i
  simp only [Nat.testBit_and, Nat.testBit_mod_two_pow]
  by_cases h : i < k
  · simp [h]
  · have : m.testBit i = false :=
      Nat.testBit_lt_two_pow (Nat.lt_of_lt_of_le hm (Nat.pow_le_pow_right (by norm_num) (by omega)))
    simp [h, this]

/-- The within-tile index only depends on the coordinates modulo 8, because
the loop masks with 1, 2, 4. -/
lemma texelIndexWithinTile_mod (x y : Nat) :
    texelIndexWithinTile x y = texelIndexWithinTile (x % 8) (y % 8) := by
  have h8 : (8 : Nat) = 2 ^ 3 := by norm_num
  simp only [texelIndexWithinTile, subTileIndex, List.range_succ, List.range_zero,
    List.foldl, h8]
  rw [and_mod_two_pow_of_lt x (by decide), and_mod_two_pow_of_lt y (by decide),
    and_mod_two_pow_of_lt x (by decide), and_mod_two_pow_of_lt y (by decide),
    and_mod_two_pow_of_lt x (by decide), and_mod_two_pow_of_lt y (by decide)]

/-- On one tile the decode direction inverts the encode direction. -/
lemma decodeTexelIndex_encode (a b : Fin 8) :
    decodeTexelIndex (texelIndexWithinTile a b) = ((a : Nat), (b : Nat)) := by
  revert a b; decide

/-- The within-tile index of an in-tile coordinate is below 64. -/
lemma texelIndexWithinTile_lt (a b : Fin 8) : texelIndexWithinTile a b < 64 := by
  revert a b; decide

/-- C2: the within-tile addressing function is a bijection of the 8×8 tile
onto indices 0..63 — it is injective, bounded by 64, and surjective with the
decode direction as two-sided inverse — and on any tile-aligned image the
decode direction composed with the encode direction is the identity:
`tiledByteDecode width (tiledByteOffset width x y) = (x, y)`. -/
theorem tiled_codec_roundtrip :
    (∀ x y x' y' : Fin 8,
      texelIndexWithinTile x y = texelIndexWithinTile x' y' → x = x' ∧ y = y') ∧
    (∀ x y : Fin 8, texelIndexWithinTile x y < 64) ∧
    (∀ t : Fin 64, (decodeTexelIndex t).1 < 8 ∧ (decodeTexelIndex t).2 < 8 ∧
      texelIndexWithinTile (decodeTexelIndex t).1 (decodeTexelIndex t).2 = t) ∧
    (∀ width x y : Nat, 8 ∣ width → x < width →
      tiledByteDecode width (tiledByteOffset width x y) = (x, y)) := by
  refine ⟨by decide, texelIndexWithinTile_lt, by decide, ?_⟩
  rintro width x y ⟨w, rfl⟩ hx
  have hw : 0 < w := by omega
  have ht : texelIndexWithinTile x y = texelIndexWithinTile (x % 8) (y % 8) :=
    texelIndexWithinTile_mod x y
  have htlt : texelIndexWithinTile x y < 64 := by
    rw [ht]
    exact texelIndexWithinTile_lt ⟨x % 8, Nat.mod_lt x (by norm_num)⟩
      ⟨y % 8, Nat.mod_lt y (by norm_num)⟩
  set t := texelIndexWithinTile x y with hts
  have hoff : tiledByteOffset (8 * w) x y =
      3 * (64 * (x / 8) + 64 * w * (y / 8) + t) := by
    simp only [tiledByteOffset, hts]
    ring
  have htexels : tiledByteOffset (8 * w) x y / 3 =
      64 * ((x / 8) + w * (y / 8)) + t := by
    rw [hoff, Nat.mul_div_cancel_left _ (by norm_num)]
    ring
  have hxdiv : x / 8 < w := by
    rw [Nat.div_lt_iff_lt_mul (by norm_num)]
    omega
  have hmod : (64 * ((x / 8) + w * (y / 8)) + t) % 64 = t := by
    rw [Nat.mul_add_mod, Nat.mod_eq_of_lt htlt]
  have hdiv : (64 * ((x / 8) + w * (y / 8)) + t) / 64 = (x / 8) + w * (y / 8) := by
    rw [Nat.mul_add_div (by norm_num), Nat.div_eq_of_lt htlt, Nat.add_zero]
  have hde : decodeTexelIndex t = (x % 8, y % 8) := by
    rw [hts, texelIndexWithinTile_mod x y]
    exact decodeTexelIndex_encode ⟨x % 8, Nat.mod_lt x (by norm_num)⟩
      ⟨y % 8, Nat.mod_lt y (by norm_num)⟩
  simp only [tiledByteDecode, htexels, hmod, hdiv, hde]
  rw [Nat.mul_div_cancel_left w (by norm_num)]
  rw [Nat.add_mul_mod_self_left, Nat.mod_eq_of_lt hxdiv,
    Nat.add_mul_div_left _ _ hw, Nat.div_eq_of_lt hxdiv, Nat.zero_add]
  exact Prod.ext (Nat.div_add_mod x 8) (Nat.div_add_mod y 8)

/-- Witness: the round-trip theorem evaluated on the tile-aligned 16-wide
image at coordinate (9, 3), and injectivity at an explicit pair. -/
theorem tiled_codec_roundtrip_witness :
    tiledByteDecode 16 (tiledByteOffset 16 9 3) = (9, 3) ∧
    ((3 : Fin 8) = 3 ∧ (5 : Fin 8) = 5) :=
  ⟨tiled_codec_roundtrip.2.2.2 16 9 3 (by decide) (by decide),
   tiled_codec_roundtrip.1 3 5 3 5 (by decide)⟩

/-! ## Pica register-write tracing (debug_utils.cpp lines 271-323)

The tracer's global state is `is_pica_tracing` (a flag, initially false) and
`pica_trace` (a `unique_ptr<PicaTrace>`, initially null).  The lock only
serializes cross-thread access; sequentially the double check in
`OnPicaRegWrite` collapses to one check, so the embedding below is the
sequential state machine.  A `PicaTrace` is its list of `writes`, each a
`(cmd_id, value)` pair of 32-bit registers. -/

/-- State of the tracer: the `is_pica_tracing` flag and the (possibly null)
`pica_trace` buffer holding the recorded `(cmd_id, value)` writes. -/
structure PicaTracerState where
  is_pica_tracing : Bool
  pica_trace : Option (List (Nat × Nat))
  deriving Repr, DecidableEq

/-- The initial global state: `is_pica_tracing = false`, `pica_trace` null. -/
def picaInitial : PicaTracerState := ⟨false, none⟩

/-- `StartPicaTracing`: if tracing is already running, log an error and
return; otherwise allocate a fresh empty trace and set the flag. -/
def StartPicaTracing (s : PicaTracerState) : PicaTracerState :=
  if s.is_pica_tracing then s
  else { is_pica_tracing := true, pica_trace := some [] }

/-- `IsPicaTracing`: reads the flag. -/
def IsPicaTracing (s : PicaTracerState) : Bool :=
  s.is_pica_tracing

/-- `OnPicaRegWrite`: if tracing is inactive, return without touching the
state; otherwise append `(id, value)` to `pica_trace->writes`. -/
def OnPicaRegWrite (id value : Nat) (s : PicaTracerState) : PicaTracerState :=
  if !s.is_pica_tracing then s
  else { s with pica_trace := s.pica_trace.map (· ++ [(id, value)]) }

/-- `FinishPicaTracing`: if tracing is inactive, log an error and return a
null pointer leaving the state alone; otherwise clear the flag and move the
trace buffer out to the caller (the global buffer becomes null). -/
def FinishPicaTracing (s : PicaTracerState) :
    Option (List (Nat × Nat)) × PicaTracerState :=
  if !s.is_pica_tracing then (none, s)
  else (s.pica_trace, { is_pica_tracing := false, pica_trace := none })

/-- Running a list of register writes through the tracer. -/
def runPicaWrites (writes : List (Nat × Nat)) (s : PicaTracerState) : PicaTracerState :=
  writes.foldl (fun s p => OnPicaRegWrite p.1 p.2 s) s

/-- While tracing is active, every write is appended in call order. -/
lemma runPicaWrites_active (writes : List (Nat × Nat)) (l : List (Nat × Nat)) :
    runPicaWrites writes ⟨true, some l⟩ = ⟨true, some (l ++ writes)⟩ := by
  induction writes generalizing l with
  | nil => simp [runPicaWrites]
  | cons p rest ih =>
      simp only [runPicaWrites, List.foldl_cons] at ih ⊢
      rw [show OnPicaRegWrite p.1 p.2 ⟨true, some l⟩ =
            ⟨true, some (l ++ [(p.1, p.2)])⟩ by simp [OnPicaRegWrite]]
      rw [ih, List.append_assoc]
      rfl

/-- C3: after `StartPicaTracing` from the initial state, a sequence of
`OnPicaRegWrite` calls is recorded in call order and `FinishPicaTracing`
returns exactly that sequence; any further `OnPicaRegWrite` issued on the
post-finish state (tracing inactive) changes nothing. -/
theorem pica_tracing_records_in_order (writes : List (Nat × Nat)) (id value : Nat) :
    (FinishPicaTracing (runPicaWrites writes (StartPicaTracing picaInitial))).1 =
      some writes ∧
    OnPicaRegWrite id value
        (FinishPicaTracing (runPicaWrites writes (StartPicaTracing picaInitial))).2 =
      (FinishPicaTracing (runPicaWrites writes (StartPicaTracing picaInitial))).2 := by
  have hstart : StartPicaTracing picaInitial = ⟨true, some []⟩ := by
    simp [StartPicaTracing, picaInitial]
  rw [hstart, runPicaWrites_active writes []]
  simp [FinishPicaTracing, OnPicaRegWrite]

/-- C5: tracer misuse leaves the state unchanged — `StartPicaTracing` while
tracing is active is a no-op that keeps the existing trace buffer, and
`FinishPicaTracing` while tracing is inactive returns the null/default
result and leaves the state unchanged. -/
theorem pica_tracing_misuse_is_noop (s : PicaTracerState) :
    (s.is_pica_tracing = true → StartPicaTracing s = s) ∧
    (s.is_pica_tracing = false → FinishPicaTracing s = (none, s)) := by
  constructor
  · intro h; simp [StartPicaTracing, h]
  · intro h; simp [FinishPicaTracing, h]

/-- Witness: misuse no-op evaluated at explicit states — a running tracer
with one recorded write, and the idle initial state. -/
theorem pica_tracing_misuse_is_noop_witness :
    StartPicaTracing ⟨true, some [(7, 42)]⟩ = ⟨true, some [(7, 42)]⟩ ∧
    FinishPicaTracing ⟨false, none⟩ = (none, ⟨false, none⟩) :=
  ⟨(pica_tracing_misuse_is_noop ⟨true, some [(7, 42)]⟩).1 rfl,
   (pica_tracing_misuse_is_noop ⟨false, none⟩).2 rfl⟩

/-! ## Surface modification tick (claim C4) -/

/-- Modelled from the spec: `SurfaceBase<View>::MarkAsModified` is declared
in video_core/texture_cache/surface_base.h, which is not part of this
sample; only its caller `CachedSurfaceView::MarkAsModified` is.  Per the
spec it "records the latest tick at which any writer touched this Surface —
monotonic, last-write-wins, never decreases", so the recorded tick becomes
the maximum of the previously recorded tick and the written one.  Ticks are
u64 scheduler counters, modelled as `Nat` (max never overflows). -/
structure SurfaceModel where
  is_modified : Bool
  modification_tick : Nat
  deriving Repr, DecidableEq

/-- `MarkAsModified` on the owning Surface. -/
def SurfaceModel.MarkAsModified (s : SurfaceModel) (is_modified : Bool) (tick : Nat) :
    SurfaceModel :=
  { is_modified := is_modified, modification_tick := max s.modification_tick tick }

/-- `CachedSurfaceView::MarkAsModified` (vk_texture_cache.h lines 184-186):
forwards to the owning Surface with `is_modified = true`. -/
def viewMarkAsModified (tick : Nat) (s : SurfaceModel) : SurfaceModel :=
  s.MarkAsModified true tick

/-- C4: the recorded modification tick never decreases, and for two writes
with non-decreasing ticks `t1 ≤ t2` issued through a View the recorded tick
after both is `max t1 t2` in either application order. -/
theorem surface_tick_monotone (s : SurfaceModel) (t1 t2 : Nat)
    (h0 : s.modification_tick ≤ t1) (h12 : t1 ≤ t2) :
    (viewMarkAsModified t2 (viewMarkAsModified t1 s)).modification_tick = max t1 t2 ∧
    (viewMarkAsModified t1 (viewMarkAsModified t2 s)).modification_tick = max t1 t2 ∧
    ∀ t : Nat, s.modification_tick ≤ (viewMarkAsModified t s).modification_tick := by
  refine ⟨?_, ?_, fun t => ?_⟩ <;>
    simp [viewMarkAsModified, SurfaceModel.MarkAsModified] <;> omega

/-- Witness: tick monotonicity evaluated on a surface last modified at tick
1 with writes at ticks 3 and 5. -/
theorem surface_tick_monotone_witness :
    (viewMarkAsModified 5 (viewMarkAsModified 3 ⟨false, 1⟩)).modification_tick = max 3 5 ∧
    (viewMarkAsModified 3 (viewMarkAsModified 5 ⟨false, 1⟩)).modification_tick = max 3 5 ∧
    ∀ t : Nat, (⟨false, 1⟩ : SurfaceModel).modification_tick ≤
      (viewMarkAsModified t ⟨false, 1⟩).modification_tick :=
  surface_tick_monotone ⟨false, 1⟩ 3 5 (by decide) (by decide)

/-! ## Swizzle encoding and the per-View view cache (claims C6, C9) -/

/-- Modelled from the spec: `Tegra::Texture::SwizzleSource`
(video_core/textures/texture.h, not part of this sample): each selector
picks one of zero/one/R/G/B/A and is stored in 8 bits. -/
inductive SwizzleSource where
  | Zero
  | R
  | G
  | B
  | A
  | OneInt
  | OneFloat
  deriving Repr, DecidableEq

/-- The numeric value of a swizzle selector (`static_cast<u32>`). -/
def SwizzleSource.val : SwizzleSource → Nat
  | .Zero => 0
  | .R => 2
  | .G => 3
  | .B => 4
  | .A => 5
  | .OneInt => 6
  | .OneFloat => 7

/-- `CachedSurfaceView::EncodeSwizzle` (vk_texture_cache.h lines 189-195) on
raw u32 selector values: `(x << 24) | (y << 16) | (z << 8) | w`, 32-bit. -/
def encodeSwizzlePack (x y z w : Nat) : Nat :=
  (((x <<< 24) ||| (y <<< 16) ||| (z <<< 8)) ||| w) % 2 ^ 32

/-- `EncodeSwizzle` applied to swizzle selectors. -/
def EncodeSwizzle (x y z w : SwizzleSource) : Nat :=
  encodeSwizzlePack x.val y.val z.val w.val

/-- Or-ing a multiple of `2 ^ k` with a value below `2 ^ k` is addition. -/
lemma lor_eq_add_of_dvd {k a : Nat} (m : Nat) (h : a < 2 ^ k) :
    (2 ^ k * m) ||| a = 2 ^ k * m + a := by
  apply Nat.eq_of_testBit_eq
  intro j
  rw [Nat.testBit_lor, Nat.testBit_mul_pow_two_add m h j, Nat.testBit_mul_pow_two]
  by_cases hj : j < k
  · simp [hj, Nat.not_le.mpr hj]
  · have ha : a.testBit j = false :=
      Nat.testBit_lt_two_pow
        (Nat.lt_of_lt_of_le h (Nat.pow_le_pow_right (by norm_num) (by omega)))
    simp [hj, Nat.not_lt.mp hj, ha]

/-- For 8-bit selectors the packed key is the base-256 digit expansion. -/
lemma encodeSwizzlePack_eq {x y z w : Nat}
    (hx : x < 256) (hy : y < 256) (hz : z < 256) (hw : w < 256) :
    encodeSwizzlePack x y z w = 16777216 * x + 65536 * y + 256 * z + w := by
  have e1 : (x <<< 24) ||| (y <<< 16) = 2 ^ 24 * x + 2 ^ 16 * y := by
    rw [Nat.shiftLeft_eq x 24, Nat.shiftLeft_eq y 16, Nat.mul_comm x, Nat.mul_comm y]
    exact lor_eq_add_of_dvd (k := 24) x (by omega)
  have e2 : (2 ^ 24 * x + 2 ^ 16 * y) ||| (z <<< 8) =
      2 ^ 24 * x + 2 ^ 16 * y + 2 ^ 8 * z := by
    rw [Nat.shiftLeft_eq z 8, Nat.mul_comm z,
      show 2 ^ 24 * x + 2 ^ 16 * y = 2 ^ 16 * (2 ^ 8 * x + y) by ring]
    exact lor_eq_add_of_dvd (k := 16) (2 ^ 8 * x + y) (by omega)
  have e3 : (2 ^ 24 * x + 2 ^ 16 * y + 2 ^ 8 * z) ||| w =
      2 ^ 24 * x + 2 ^ 16 * y + 2 ^ 8 * z + w := by
    rw [show 2 ^ 24 * x + 2 ^ 16 * y + 2 ^ 8 * z =
        2 ^ 8 * (2 ^ 16 * x + 2 ^ 8 * y + z) by ring]
    rw [lor_eq_add_of_dvd (k := 8) (2 ^ 16 * x + 2 ^ 8 * y + z) hw]
  rw [encodeSwizzlePack, e1, e2, e3, Nat.mod_eq_of_lt (by omega)]
  ring

/-- The packing is injective on 8-bit selectors. -/
lemma encodeSwizzlePack_inj {x y z w x' y' z' w' : Nat}
    (hx : x < 256) (hy : y < 256) (hz : z < 256) (hw : w < 256)
    (hx' : x' < 256) (hy' : y' < 256) (hz' : z' < 256) (hw' : w' < 256) :
    encodeSwizzlePack x y z w = encodeSwizzlePack x' y' z' w' ↔
      (x = x' ∧ y = y' ∧ z = z' ∧ w = w') := by
  rw [encodeSwizzlePack_eq hx hy hz hw, encodeSwizzlePack_eq hx' hy' hz' hw']
  omega

/-- Every swizzle selector value fits in 8 bits. -/
lemma swizzleSource_val_lt (s : SwizzleSource) : s.val < 256 := by
  cases s <;> decide

/-- Selector values identify selectors. -/
lemma swizzleSource_val_inj (a b : SwizzleSource) (h : a.val = b.val) : a = b := by
  cases a <;> cases b <;> simp_all [SwizzleSource.val]

/-- Modelled from the spec: the body of `CachedSurfaceView::GetHandle`
(defined in vk_texture_cache.cpp, which is not part of this sample; the
header declares it together with the `std::unordered_map<u32,
UniqueImageView> view_cache` member).  Per the spec the call "computes a
32-bit key by packing each 8-bit selector; looks up the per-View swizzle
cache; on miss, constructs a new native sub-object … and inserts it".  The
state holds the cache as an association list from packed key to native
handle, plus the number of native sub-object constructions; each
construction yields a fresh handle. -/
structure ViewCacheState where
  view_cache : List (Nat × Nat)
  constructions : Nat
  deriving Repr, DecidableEq

/-- A freshly created View: empty swizzle cache, nothing constructed. -/
def viewCacheInitial : ViewCacheState := ⟨[], 0⟩

/-- `GetHandle(x_source, y_source, z_source, w_source)`: cache lookup by the
packed swizzle key, constructing and inserting on a miss. -/
def GetHandle (x y z w : SwizzleSource) (s : ViewCacheState) : Nat × ViewCacheState :=
  let key := EncodeSwizzle x y z w
  match s.view_cache.lookup key with
  | some handle => (handle, s)
  | none =>
      let handle := s.constructions
      (handle, ⟨(key, handle) :: s.view_cache, s.constructions + 1⟩)

/-- `CachedSurfaceView::GetHandle()` (vk_texture_cache.h lines 141-144): the
zero-argument overload forwards to `GetHandle(R, G, B, A)`. -/
def GetHandleDefault (s : ViewCacheState) : Nat × ViewCacheState :=
  GetHandle SwizzleSource.R SwizzleSource.G SwizzleSource.B SwizzleSource.A s

/-- C6: the swizzle cache key is faithful.  The packing is injective on
8-bit selectors (two calls collide on a key iff all four selectors agree);
a repeated `GetHandle` with identical selectors is a cache hit returning
the same handle without changing the cache, so from a fresh View exactly one
construction happens; and two calls with different selectors use distinct
keys and perform two constructions, cached as distinct entries. -/
theorem swizzle_cache_faithful :
    (∀ x y z w x' y' z' w' : Nat, x < 256 → y < 256 → z < 256 → w < 256 →
      x' < 256 → y' < 256 → z' < 256 → w' < 256 →
      (encodeSwizzlePack x y z w = encodeSwizzlePack x' y' z' w' ↔
        (x = x' ∧ y = y' ∧ z = z' ∧ w = w'))) ∧
    (∀ (x y z w : SwizzleSource) (s : ViewCacheState),
      GetHandle x y z w (GetHandle x y z w s).2 =
        ((GetHandle x y z w s).1, (GetHandle x y z w s).2)) ∧
    (∀ x y z w : SwizzleSource,
      ((GetHandle x y z w viewCacheInitial).2).constructions = 1) ∧
    (∀ x y z w x' y' z' w' : SwizzleSource,
      ¬(x = x' ∧ y = y' ∧ z = z' ∧ w = w') →
      EncodeSwizzle x y z w ≠ EncodeSwizzle x' y' z' w' ∧
      ((GetHandle x' y' z' w' (GetHandle x y z w viewCacheInitial).2).2).constructions = 2) := by
  have hkey_ne : ∀ x y z w x' y' z' w' : SwizzleSource,
      ¬(x = x' ∧ y = y' ∧ z = z' ∧ w = w') →
      EncodeSwizzle x y z w ≠ EncodeSwizzle x' y' z' w' := by
    intro x y z w x' y' z' w' hne heq
    rw [EncodeSwizzle, EncodeSwizzle,
      encodeSwizzlePack_inj (swizzleSource_val_lt x) (swizzleSource_val_lt y)
        (swizzleSource_val_lt z) (swizzleSource_val_lt w) (swizzleSource_val_lt x')
        (swizzleSource_val_lt y') (swizzleSource_val_lt z') (swizzleSource_val_lt w')] at heq
    exact hne ⟨swizzleSource_val_inj _ _ heq.1, swizzleSource_val_inj _ _ heq.2.1,
      swizzleSource_val_inj _ _ heq.2.2.1, swizzleSource_val_inj _ _ heq.2.2.2⟩
  refine ⟨fun x y z w x' y' z' w' hx hy hz hw hx' hy' hz' hw' =>
    encodeSwizzlePack_inj hx hy hz hw hx' hy' hz' hw', ?_, ?_, ?_⟩
  · intro x y z w s
    rcases hl : s.view_cache.lookup (EncodeSwizzle x y z w) with _ | handle
    · simp [GetHandle, hl, List.lookup]
    · simp [GetHandle, hl]
  · intro x y z w
    simp [GetHandle, viewCacheInitial, List.lookup]
  · intro x y z w x' y' z' w' hne
    have hne' := hkey_ne x y z w x' y' z' w' hne
    refine ⟨hne', ?_⟩
    have hbeq : (EncodeSwizzle x' y' z' w' == EncodeSwizzle x y z w) = false :=
      beq_eq_false_iff_ne.mpr (Ne.symm hne')
    simp [GetHandle, viewCacheInitial, List.lookup, hbeq]

/-- Witness: the injectivity direction at concrete 8-bit selectors and the
distinct-selector path at concrete selectors R,G,B,A versus B,G,R,A. -/
theorem swizzle_cache_faithful_witness :
    (encodeSwizzlePack 2 3 4 5 = encodeSwizzlePack 2 3 4 5 ↔
      ((2 : Nat) = 2 ∧ (3 : Nat) = 3 ∧ (4 : Nat) = 4 ∧ (5 : Nat) = 5)) ∧
    (EncodeSwizzle SwizzleSource.R SwizzleSource.G SwizzleSource.B SwizzleSource.A ≠
      EncodeSwizzle SwizzleSource.B SwizzleSource.G SwizzleSource.R SwizzleSource.A ∧
    ((GetHandle SwizzleSource.B SwizzleSource.G SwizzleSource.R SwizzleSource.A
      (GetHandle SwizzleSource.R SwizzleSource.G SwizzleSource.B SwizzleSource.A
        viewCacheInitial).2).2).constructions = 2) :=
  ⟨swizzle_cache_faithful.1 2 3 4 5 2 3 4 5 (by decide) (by decide) (by decide) (by decide)
      (by decide) (by decide) (by decide) (by decide),
   swizzle_cache_faithful.2.2.2 SwizzleSource.R SwizzleSource.G SwizzleSource.B SwizzleSource.A
      SwizzleSource.B SwizzleSource.G SwizzleSource.R SwizzleSource.A (by decide)⟩

/-- C9: the zero-argument `GetHandle()` is definitionally the forwarding of
`GetHandle(R, G, B, A)`: for every View cache state it returns the same
handle and leaves the same state — the default view is the unswizzled
R,G,B,A remap. -/
theorem default_gethandle_is_identity_swizzle (s : ViewCacheState) :
    GetHandleDefault s =
      GetHandle SwizzleSource.R SwizzleSource.G SwizzleSource.B SwizzleSource.A s :=
  rfl

/-! ## Shader-dump container headers (debug_utils.cpp lines 67-125)

The three `#pragma pack(1)` structs are embedded as their ordered field
layouts, a list of (field name, byte width) pairs.  With pack(1) a field's
byte offset is the sum of the widths declared before it and `sizeof` is the
total width; the `static_assert`s on the struct sizes check exactly this.
All fields are unsigned little-endian integers. -/

/-- Ordered field layout of `DVLBHeader`: two u32 fields. -/
def DVLBHeaderFields : List (String × Nat) :=
  [("magic_word", 4), ("num_programs", 4)]

/-- `DVLBHeader::MAGIC_WORD`. -/
def DVLBHeaderMagic : Nat := 0x424C5644

/-- Ordered field layout of `DVLPHeader`: seven u32 fields. -/
def DVLPHeaderFields : List (String × Nat) :=
  [("magic_word", 4), ("version", 4), ("binary_offset", 4), ("binary_size_words", 4),
   ("swizzle_patterns_offset", 4), ("swizzle_patterns_num_entries", 4), ("unk2", 4)]

/-- `DVLPHeader::MAGIC_WORD`. -/
def DVLPHeaderMagic : Nat := 0x504C5644

/-- Ordered field layout of `DVLEHeader`: u32 magic, a u16 pad, the u8
shader-type byte, a u8 pad, then fourteen u32 fields (main/end offsets in
words and the named sub-table offset+size pairs). -/
def DVLEHeaderFields : List (String × Nat) :=
  [("magic_word", 4), ("pad1", 2), ("type", 1), ("pad2", 1),
   ("main_offset_words", 4), ("endmain_offset_words", 4), ("pad3", 4), ("pad4", 4),
   ("constant_table_offset", 4), ("constant_table_size", 4),
   ("label_table_offset", 4), ("label_table_size", 4),
   ("output_register_table_offset", 4), ("output_register_table_size", 4),
   ("uniform_table_offset", 4), ("uniform_table_size", 4),
   ("symbol_table_offset", 4), ("symbol_table_size", 4)]

/-- `DVLEHeader::MAGIC_WORD`. -/
def DVLEHeaderMagic : Nat := 0x454C5644

/-- `sizeof` of a packed (pack(1)) struct: the sum of its field widths. -/
def packedSize (fields : List (String × Nat)) : Nat :=
  (fields.map Prod.snd).sum

/-- Byte offset of a named field in a packed struct: the sum of the widths
of the fields declared before it. -/
def packedOffset (fields : List (String × Nat)) (name : String) : Nat :=
  ((fields.takeWhile fun f => f.1 != name).map Prod.snd).sum

/-- The little-endian byte serialization of an `n`-byte unsigned value. -/
def leBytes (n v : Nat) : List Nat :=
  (List.range n).map fun i => v / 256 ^ i % 256

/-- C7: the shader-dump container headers have the specified packed layout:
`sizeof(DVLBHeader) = 8` with the magic serializing little-endian to the
ASCII bytes of "DVLB" and the program count at offset 4 right behind it;
`sizeof(DVLPHeader) = 28` with magic "DVLP", binary offset/size in words at
offsets 8 and 12 and the swizzle-pattern offset/count at 16 and 20;
`sizeof(DVLEHeader) = 64` with magic "DVLE", the shader-type byte at offset
6, main/end offsets in words at 8 and 12 and the five named sub-table
offset+size pairs packed from offset 24 on — no padding anywhere. -/
theorem shader_dump_header_layout :
    packedSize DVLBHeaderFields = 8 ∧
    packedSize DVLPHeaderFields = 28 ∧
    packedSize DVLEHeaderFields = 64 ∧
    leBytes 4 DVLBHeaderMagic = "DVLB".toList.map Char.toNat ∧
    leBytes 4 DVLPHeaderMagic = "DVLP".toList.map Char.toNat ∧
    leBytes 4 DVLEHeaderMagic = "DVLE".toList.map Char.toNat ∧
    packedOffset DVLBHeaderFields "num_programs" = 4 ∧
    packedOffset DVLPHeaderFields "binary_offset" = 8 ∧
    packedOffset DVLPHeaderFields "binary_size_words" = 12 ∧
    packedOffset DVLPHeaderFields "swizzle_patterns_offset" = 16 ∧
    packedOffset DVLPHeaderFields "swizzle_patterns_num_entries" = 20 ∧
    packedOffset DVLEHeaderFields "type" = 6 ∧
    packedOffset DVLEHeaderFields "main_offset_words" = 8 ∧
    packedOffset DVLEHeaderFields "endmain_offset_words" = 12 ∧
    packedOffset DVLEHeaderFields "constant_table_offset" = 24 ∧
    packedOffset DVLEHeaderFields "output_register_table_offset" = 40 ∧
    packedOffset DVLEHeaderFields "symbol_table_size" = 60 := by
  refine ⟨?_, ?_, ?_, ?_, ?_, ?_, ?_, ?_, ?_, ?_, ?_, ?_, ?_, ?_, ?_, ?_, ?_⟩ <;> decide

/-! ## Diagnostic dumps are disabled by default (claim C8) -/

/-- The externally observable state a dump routine could touch: the files
written so far and the `static int dump_index` counters. -/
structure DumpEnv where
  files : List String
  shader_dump_index : Nat
  texture_dump_index : Nat
  deriving Repr, DecidableEq

/-- `DumpShader` (debug_utils.cpp lines 127-132): the body begins with an
unconditional `return` ("this is currently disabled"), so everything after
it — the shbin serialization and the file write — is unreachable and the
call has no observable effect.  The arguments mirror the C++ signature. -/
def DumpShader (binary_data : List Nat) (binary_size : Nat) (swizzle_data : List Nat)
    (swizzle_size main_offset : Nat) (env : DumpEnv) : DumpEnv :=
  env

/-- `DumpTexture` (debug_utils.cpp lines 325-328): the body likewise begins
with an unconditional `return`, so the PNG tiling/serialization code after
it is unreachable. -/
def DumpTexture (texture_width texture_height : Nat) (data : List Nat)
    (env : DumpEnv) : DumpEnv :=
  env

/-- C8: for every input, `DumpShader` and `DumpTexture` return without any
observable effect: no file is written and no counter outside the function
changes. -/
theorem dumps_disabled_by_default (env : DumpEnv)
    (binary_data swizzle_data data : List Nat)
    (binary_size swizzle_size main_offset texture_width texture_height : Nat) :
    DumpShader binary_data binary_size swizzle_data swizzle_size main_offset env = env ∧
    DumpTexture texture_width texture_height data env = env :=
  ⟨rfl, rfl⟩

/-! ## GeometryDumper (debug_utils.cpp lines 25-42) -/

/-- Modelled from the spec: `Pica::TriangleTopology` is declared in
video_core/pica.h, which is not part of this sample.  `AddVertex` matches
the `List` and `ListIndexed` cases and treats every other topology as an
unknown-topology error. -/
inductive TriangleTopology where
  | List
  | Strip
  | Fan
  | ListIndexed
  deriving Repr, DecidableEq

/-- `GeometryDumper` state: the `vertices` and `faces` vectors.  A vertex is
three floats the dumper stores but never inspects, modelled by the type
parameter; a face is the triple of its vertex indices. -/
structure GeometryDumper (α : Type) where
  vertices : List α
  faces : List (Nat × Nat × Nat)
  deriving Repr, DecidableEq

/-- `GeometryDumper::AddVertex`: push the vertex; for `List`/`ListIndexed`
topology append the face `{num_vertices-3, num_vertices-2, num_vertices-1}`
exactly when the new vertex count is a multiple of 3; for any other topology
log an error and terminate (modelled as `none`). -/
def AddVertex {α : Type} (pos : α) (topology : TriangleTopology)
    (d : GeometryDumper α) : Option (GeometryDumper α) :=
  let vertices := d.vertices ++ [pos]
  let num_vertices := vertices.length
  match topology with
  | .List | .ListIndexed =>
      some { vertices := vertices,
             faces :=
               if num_vertices % 3 == 0 then
                 d.faces ++ [(num_vertices - 3, num_vertices - 2, num_vertices - 1)]
               else d.faces }
  | _ => none

/-- A sequence of `AddVertex` calls. -/
def runAddVertices {α : Type} (topology : TriangleTopology) (ps : List α)
    (d : GeometryDumper α) : Option (GeometryDumper α) :=
  ps.foldlM (fun d p => AddVertex p topology d) d

/-- The face list of a dumper holding `n` vertices added with list
topology. -/
def expectedFaces (n : Nat) : List (Nat × Nat × Nat) :=
  (List.range (n / 3)).map fun k => (3 * k, 3 * k + 1, 3 * k + 2)

/-- Appending one vertex extends the expected face table exactly when the
new count is a multiple of 3. -/
lemma expectedFaces_succ (n : Nat) :
    (if (n + 1) % 3 == 0 then expectedFaces n ++ [(n + 1 - 3, n + 1 - 2, n + 1 - 1)]
     else expectedFaces n) = expectedFaces (n + 1) := by
  by_cases hmod : (n + 1) % 3 = 0
  · have hdiv : (n + 1) / 3 = n / 3 + 1 := by omega
    rw [if_pos (by simpa using hmod)]
    rw [expectedFaces, expectedFaces, hdiv, List.range_succ, List.map_append]
    simp only [List.map_cons, List.map_nil]
    have h1 : 3 * (n / 3) = n + 1 - 3 := by omega
    have h2 : n + 1 - 3 + 1 = n + 1 - 2 := by omega
    have h3 : n + 1 - 3 + 2 = n + 1 - 1 := by omega
    rw [h1, h2, h3]
  · have hdiv : (n + 1) / 3 = n / 3 := by omega
    rw [if_neg (by simpa using hmod)]
    rw [expectedFaces, expectedFaces, hdiv]

/-- One `AddVertex` step with list topology preserves the face-table
invariant. -/
lemma addVertex_list_step {α : Type} (p : α) (topology : TriangleTopology)
    (htopo : topology = TriangleTopology.List ∨ topology = TriangleTopology.ListIndexed)
    (vs : List α) :
    AddVertex p topology ⟨vs, expectedFaces vs.length⟩ =
      some ⟨vs ++ [p], expectedFaces (vs.length + 1)⟩ := by
  have hlen : (vs ++ [p]).length = vs.length + 1 := by simp
  rcases htopo with h | h <;> subst h <;>
    · simp only [AddVertex, hlen]
      rw [expectedFaces_succ vs.length]

/-- Folding a list of vertices through `AddVertex` with list topology keeps
the face-table invariant. -/
lemma runAddVertices_spec {α : Type} (topology : TriangleTopology)
    (htopo : topology = TriangleTopology.List ∨ topology = TriangleTopology.ListIndexed)
    (ps vs : List α) :
    runAddVertices topology ps ⟨vs, expectedFaces vs.length⟩ =
      some ⟨vs ++ ps, expectedFaces (vs.length + ps.length)⟩ := by
  induction ps generalizing vs with
  | nil => simp [runAddVertices]
  | cons p rest ih =>
      rw [runAddVertices, List.foldlM_cons, addVertex_list_step p topology htopo vs]
      have hrest := ih (vs ++ [p])
      rw [runAddVertices] at hrest
      simp only [List.length_append, List.length_cons, List.length_nil, Nat.zero_add] at hrest
      show List.foldlM (fun d p => AddVertex p topology d)
          ⟨vs ++ [p], expectedFaces (vs.length + 1)⟩ rest =
        some ⟨vs ++ p :: rest, expectedFaces (vs.length + (p :: rest).length)⟩
      rw [hrest, List.append_assoc, List.singleton_append]
      simp only [List.length_cons]
      rw [show vs.length + 1 + rest.length = vs.length + (rest.length + 1) by omega]

/-- C10: starting from a fresh `GeometryDumper`, any sequence of `n`
`AddVertex` calls with `List` or `ListIndexed` topology succeeds, leaves
exactly the `n` vertices in call order, and produces exactly `⌊n/3⌋` faces
where the k-th face (0-based) holds vertex indices `3k, 3k+1, 3k+2`;
moreover a single call appends a face exactly when the new vertex count is
a multiple of 3, and otherwise leaves the face list unchanged. -/
theorem geometry_dumper_faces {α : Type} (ps : List α) (topology : TriangleTopology)
    (htopo : topology = TriangleTopology.List ∨ topology = TriangleTopology.ListIndexed) :
    runAddVertices topology ps ⟨[], []⟩ =
      some ⟨ps, (List.range (ps.length / 3)).map fun k => (3 * k, 3 * k + 1, 3 * k + 2)⟩ ∧
    (runAddVertices topology ps ⟨[], []⟩).map (fun d => d.faces.length) =
      some (ps.length / 3) ∧
    (runAddVertices topology ps ⟨[], []⟩).map (fun d => d.vertices.length) =
      some ps.length ∧
    (∀ (p : α) (d : GeometryDumper α),
      AddVertex p topology d =
        some ⟨d.vertices ++ [p],
          if (d.vertices.length + 1) % 3 == 0 then
            d.faces ++ [(d.vertices.length + 1 - 3, d.vertices.length + 1 - 2,
              d.vertices.length + 1 - 1)]
          else d.faces⟩) := by
  have hrun : runAddVertices topology ps ⟨[], []⟩ =
      some ⟨ps, expectedFaces ps.length⟩ := by
    have := runAddVertices_spec topology htopo ps []
    simpa [expectedFaces] using this
  refine ⟨?_, ?_, ?_, ?_⟩
  · rw [hrun]; rfl
  · rw [hrun]
    simp [expectedFaces]
  · rw [hrun]
    simp
  · intro p d
    rcases htopo with h | h <;> subst h <;>
      simp only [AddVertex, List.length_append, List.length_cons, List.length_nil]

/-- Witness: four `AddVertex` calls with `List` topology on a fresh dumper
leave four vertices and the single face (0, 1, 2). -/
theorem geometry_dumper_faces_witness :
    runAddVertices TriangleTopology.List [10, 20, 30, 40] ⟨[], []⟩ =
      some ⟨[10, 20, 30, 40], [(0, 1, 2)]⟩ := by
  have h := (geometry_dumper_faces [10, 20, 30, 40] TriangleTopology.List (Or.inl rfl)).1
  rw [h]
  decide

end Yuzu
